import Mathlib

/-!
Shallow embedding of `vscode-env-manager.py` (cert1970/vscode-env-manager).

The program is a six-command CLI.  Pure computations (line stripping, set
differences, `difflib.unified_diff`) are embedded as Lean functions; the
filesystem is an explicit map from path strings to optional contents, and the
side-effecting commands (`backup`, `restore`, `diff`) are state transformers
over it.  External subprocess output (`code --list-extensions`) is a parameter.
-/

/-! ### Python string primitives -/

/-- Python `str.strip()` whitespace test (the ASCII whitespace characters). -/
def pyIsSpace (c : Char) : Bool :=
  c = ' ' || c = '\t' || c = '\n' || c = '\r' || c = '\x0b' || c = '\x0c'

/-- Python `str.strip()`: drop leading and trailing whitespace. -/
def pyStrip (s : String) : String :=
  String.mk (((s.data.dropWhile pyIsSpace).reverse.dropWhile pyIsSpace).reverse)

/-- Split a character stream into lines, each keeping its terminating newline
(Python `readlines` on an open file).  `acc` holds the current line reversed. -/
def splitLinesAux : List Char → List Char → List String
  | acc, [] => if acc = [] then [] else [String.mk acc.reverse]
  | acc, '\n' :: rest => String.mk ('\n' :: acc).reverse :: splitLinesAux [] rest
  | acc, c :: rest => splitLinesAux (c :: acc) rest

/-- Python text-mode universal newlines: `"\r\n"` and a lone `"\r"` both read
back as `"\n"`. -/
def universalNewlines : List Char → List Char
  | [] => []
  | '\r' :: '\n' :: rest => '\n' :: universalNewlines rest
  | '\r' :: rest => '\n' :: universalNewlines rest
  | c :: rest => c :: universalNewlines rest

/-- `file.readlines()` on a text-mode file whose content is `s`. -/
def readLines (s : String) : List String :=
  splitLinesAux [] (universalNewlines s.data)

/-- `p.stdout.readlines()` on a subprocess pipe (binary mode: split on `\n`
only; each line is then decoded, which is the identity in this model). -/
def readLinesBin (s : String) : List String :=
  splitLinesAux [] s.data

/-! ### Extension Set Reconciler (`comp`, `install`, `uninstall`) -/

/-- Line 49: `[x.strip() for x in file.readlines()]` on `vscode-extensions.txt`. -/
def extensionsFromTxt (fileContent : String) : List String :=
  (readLines fileContent).map pyStrip

/-- Line 54: `[x.decode("utf-8").strip() for x in p.stdout.readlines()]` on the
stdout of `code --list-extensions`. -/
def extensionsFromCode (codeStdout : String) : List String :=
  (readLinesBin codeStdout).map pyStrip

/-- Python `set(xs).difference(ys)` materialised as a duplicate-free list
(iteration order of a Python set is unspecified; this model fixes one). -/
def setDiff (xs ys : List String) : List String :=
  (xs.filter (fun x => !ys.contains x)).dedup

/-- `"-" * 40` (lines 59 and 66). -/
def dashes40 : String := String.mk (List.replicate 40 '-')

/-- Identifiers printed under the `* CODE` section of `comp` (lines 57-61):
`set(extensions_code).difference(extensions_file)`. -/
def compCodeItems (fileContent codeStdout : String) : List String :=
  setDiff (extensionsFromCode codeStdout) (extensionsFromTxt fileContent)

/-- Identifiers printed under the `* FILE` section of `comp` (lines 64-68):
`set(extensions_file).difference(extensions_code)`. -/
def compFileItems (fileContent codeStdout : String) : List String :=
  setDiff (extensionsFromTxt fileContent) (extensionsFromCode codeStdout)

/-- Lines printed by the first `if` block of `comp` (lines 57-61); the block is
skipped when the set difference is empty.  `print("\n* CODE")` emits an empty
line followed by `* CODE`. -/
def compCodeSection (fileContent codeStdout : String) : List String :=
  if compCodeItems fileContent codeStdout = [] then []
  else "" :: "* CODE" :: dashes40 :: compCodeItems fileContent codeStdout

/-- Lines printed by the second `if` block of `comp` (lines 64-68). -/
def compFileSection (fileContent codeStdout : String) : List String :=
  if compFileItems fileContent codeStdout = [] then []
  else "" :: "* FILE" :: dashes40 :: compFileItems fileContent codeStdout

/-- All lines printed by `comp` (lines 45-68). -/
def compOutput (fileContent codeStdout : String) : List String :=
  compCodeSection fileContent codeStdout ++ compFileSection fileContent codeStdout

/-- The argument vectors passed to `subprocess.run` by `install` (lines 78-79),
in iteration order. -/
def installCmds (fileContent codeStdout : String) : List (List String) :=
  (setDiff (extensionsFromTxt fileContent) (extensionsFromCode codeStdout)).map
    (fun line => ["code", "--install-extension", line])

/-- The argument vectors passed to `subprocess.run` by `uninstall`
(lines 89-90), in iteration order. -/
def uninstallCmds (fileContent codeStdout : String) : List (List String) :=
  (setDiff (extensionsFromCode codeStdout) (extensionsFromTxt fileContent)).map
    (fun line => ["code", "--uninstall-extension", line])

/-- Sequential execution of a list of external commands: each is attempted and
its result recorded; `subprocess.run` is called without `check=True`, so a
failing command raises nothing and the loop continues with the next one. -/
def runAll (cmds : List (List String)) (result : List String → Bool) :
    List (List String × Bool) :=
  cmds.map (fun cmd => (cmd, result cmd))

/-- The `install` loop (lines 78-79) under a result oracle for the external
tool. -/
def installRun (fileContent codeStdout : String) (result : List String → Bool) :
    List (List String × Bool) :=
  runAll (installCmds fileContent codeStdout) result

/-- The `uninstall` loop (lines 89-90) under a result oracle. -/
def uninstallRun (fileContent codeStdout : String) (result : List String → Bool) :
    List (List String × Bool) :=
  runAll (uninstallCmds fileContent codeStdout) result

/-! ### CLI dispatch (`__main__`, lines 135-144) -/

/-- `FUNCTIONS.keys()` in source order (lines 126-133). -/
def FUNCTIONS_keys : List String :=
  ["backup", "diff", "comp", "restore", "install", "uninstall"]

/-- The lines printed by `man()` (lines 16-30): `print("Usage: ...")` followed
by a triple-quoted block (which starts and ends with a newline, and `print`
appends one more). -/
def usageLines (prog : String) : List String :=
  [ "Usage: " ++ prog ++ " [OPTION]"
  , ""
  , "OPTION"
  , "    backup     Backup extensions list to vscode-extension.txt"
  , "               and settings to vscode-settings.jsonc"
  , ""
  , "    comp       Compare list between vscode-extensions.txt file and system"
  , "    install    Install extensions from vscode-extensions.txt"
  , "    uninstall  Uninstall extensions from vscode-extensions.txt"
  , ""
  , "    diff       Compare vscode-settings.jsonc and system's settings.json"
  , "    restore    Restore vscode-settings.jsonc file to system's settings.json"
  , "" ]

/-- Observable outcome of the `__main__` block: either one command function is
invoked, or the usage text is printed and the process exits with the given
status (falling off the end of the script exits 0). -/
inductive MainOutcome
  | ranCommand (name : String)
  | printedUsage (lines : List String) (exitCode : Nat)
  deriving DecidableEq

/-- Lines 141-144: `if len(sys.argv) == 2 and sys.argv[1] in FUNCTIONS.keys():
FUNCTIONS[sys.argv[1]]() else: man()`. -/
def pyMain (argv : List String) : MainOutcome :=
  if argv.length = 2 ∧ argv.getD 1 "" ∈ FUNCTIONS_keys then
    .ranCommand (argv.getD 1 "")
  else
    .printedUsage (usageLines (argv.getD 0 "")) 0

/-! ### Settings File Synchronizer: filesystem model -/

/-- The filesystem: a map from path strings to file contents. -/
def Fs : Type := String → Option String

/-- Writing (creating or truncating) the file at `p` with content `c`. -/
def Fs.update (fs : Fs) (p c : String) : Fs :=
  fun q => if q = p then some c else fs q

/-- Python exceptions this program can die with. -/
inductive PyError
  | fileNotFound (path : String)
  /-- `UnboundLocalError` (a `NameError`): local variable `p` referenced before
  assignment, which happens on platforms that are neither linux nor win32. -/
  | nameError
  deriving DecidableEq

/-- File events, for ordering claims about `restore`. -/
inductive Ev
  | openR (path : String)
  | openW (path : String)
  | write (path : String) (content : String)
  | close (path : String)
  deriving DecidableEq

/-- The detected operating system family (`sys.platform` prefix). -/
inductive Platform
  | linux
  | win32
  | other
  deriving DecidableEq

/-- `pathlib.Path.expanduser`: replace a leading `~` component with the home
directory. -/
def expanduser (home p : String) : String :=
  match p.data with
  | '~' :: '/' :: rest => home ++ String.mk ('/' :: rest)
  | _ => p

/-- The system `settings.json` path as assigned by the platform conditionals
(lines 96-99 and 110-113).  On any other platform neither branch runs, the
variable `p` stays unassigned, and using it raises `UnboundLocalError`:
modelled as `none`. -/
def settingsPathRaw (plat : Platform) (appdata : String) : Option String :=
  match plat with
  | .linux => some "~/.config/Code/User/settings.json"
  | .win32 => some (appdata ++ "\\Code\\User\\settings.json")
  | .other => none

/-- `"vscode-settings-" + str(int(datetime.datetime.now().timestamp())) + ".jsonc"`
(line 117), with `now` the current epoch seconds. -/
def snapName (now : Nat) : String :=
  "vscode-settings-" ++ toString now ++ ".jsonc"

/-- `restore()` (lines 107-124).  Returns the outcome, the final filesystem,
and the trace of file events.  Note line 123 opens the raw `p` for writing,
without `.expanduser()` (unlike the read on line 116). -/
def restoreRun (plat : Platform) (home appdata : String) (now : Nat) (fs : Fs) :
    Except PyError Unit × Fs × List Ev :=
  match settingsPathRaw plat appdata with
  | none => (.error .nameError, fs, [])
  | some praw =>
    let pexp := expanduser home praw
    match fs pexp with
    | none => (.error (.fileNotFound pexp), fs, [])
    | some liveContent =>
      -- lines 115-119: snapshot the live file; the `with` block closes
      -- `file_backup` (opened second) first, then `file_system`.
      let snap := snapName now
      let fs1 := fs.update snap liveContent
      let tr1 : List Ev :=
        [.openR pexp, .openW snap, .write snap liveContent, .close snap, .close pexp]
      match fs1 "vscode-settings.jsonc" with
      | none => (.error (.fileNotFound "vscode-settings.jsonc"), fs1, tr1)
      | some backupContent =>
        -- lines 121-124: `open("vscode-settings.jsonc","r")`, then
        -- `open(p, "w")` on the raw (unexpanded) path.
        let fs2 := fs1.update praw backupContent
        (.ok (), fs2,
         tr1 ++ [.openR "vscode-settings.jsonc", .openW praw,
                 .write praw backupContent, .close praw,
                 .close "vscode-settings.jsonc"])

/-! ### `difflib` embedding

`diff()` calls `difflib.unified_diff(a, b, "before.json", "after.json")`,
which runs `SequenceMatcher(None, a, b)`.  With `isjunk=None` the junk set
`bjunk` is empty; the autojunk heuristic (elements of `b` occurring more than
`1 + len(b)//100` times when `len(b) >= 200`) still removes popular elements
from the index `b2j`. -/

/-- An opcode `(tag, i1, i2, j1, j2)`. -/
abbrev Op := String × Nat × Nat × Nat × Nat

/-- The autojunk "popular" test of `SequenceMatcher.__chain_b`. -/
def isPopular (b : List String) (v : String) : Bool :=
  b.length ≥ 200 && b.count v > b.length / 100 + 1

/-- `b2j[v]`: the ascending positions of `v` in `b`, empty for popular
elements (which were deleted from the dict). -/
def b2j (b : List String) (v : String) : List Nat :=
  if isPopular b v then []
  else (List.range b.length).filter (fun j => b.getD j "" == v)

/-- The chain length `k = j2len.get(j-1, 0) + 1` computed by the inner loop of
`find_longest_match` at column `j` over the previous row `j2p`
(`j2len.get(-1, 0)` is `0`, hence the `j = 0` case). -/
def kv (j2p : Nat → Nat) (j : Nat) : Nat :=
  (if j = 0 then 0 else j2p (j - 1)) + 1

/-- Body of the inner loop of `find_longest_match` at candidate position `j`:
`k = j2len.get(j-1, 0) + 1; newj2len[j] = k; if k > best_size: best =
(i-k+1, j-k+1, k)`.  `j2len` is the previous row; `st` carries `newj2len` and
the running best `(best_i, best_j, best_size)`.  (The subtractions cannot
truncate because `k ≤ min i j + 1`.) -/
def dpInner (j2len : Nat → Nat) (i : Nat)
    (st : (Nat → Nat) × Nat × Nat × Nat) (j : Nat) :
    (Nat → Nat) × Nat × Nat × Nat :=
  let k := kv j2len j
  let nj : Nat → Nat := fun j' => if j' = j then k else st.1 j'
  if k > st.2.2.2 then (nj, (i + 1 - k, j + 1 - k, k)) else (nj, st.2)

/-- One row `i` of `find_longest_match`: iterate over `b2j.get(a[i], [])`,
skipping `j < blo` (`continue`) and stopping at the first `j >= bhi` (`break`;
the position list is ascending, so this is a `takeWhile`).  The new `j2len`
starts empty. -/
def dpStep (a b : List String) (blo bhi : Nat)
    (st : (Nat → Nat) × Nat × Nat × Nat) (i : Nat) :
    (Nat → Nat) × Nat × Nat × Nat :=
  let js := ((b2j b (a.getD i "")).filter (fun j => decide (blo ≤ j))).takeWhile
    (fun j => decide (j < bhi))
  js.foldl (dpInner st.1 i) ((fun _ => 0), st.2)

/-- The backward extension loop of `find_longest_match`
(`while best_i > alo and best_j > blo and a[best_i-1] == b[best_j-1]`);
the `not isbjunk(...)` conjunct is vacuous because the junk set is empty. -/
def extendBack (a b : List String) (alo blo bi bj bs : Nat) : Nat × Nat × Nat :=
  if h : alo < bi ∧ blo < bj ∧ a.getD (bi - 1) "" = b.getD (bj - 1) "" then
    extendBack a b alo blo (bi - 1) (bj - 1) (bs + 1)
  else (bi, bj, bs)
termination_by bi
decreasing_by omega

/-- The forward extension loop of `find_longest_match`
(`while best_i+best_size < ahi and best_j+best_size < bhi and
a[best_i+best_size] == b[best_j+best_size]`). -/
def extendFwd (a b : List String) (ahi bhi bi bj bs : Nat) : Nat × Nat × Nat :=
  if h : bi + bs < ahi ∧ bj + bs < bhi ∧ a.getD (bi + bs) "" = b.getD (bj + bs) "" then
    extendFwd a b ahi bhi bi bj (bs + 1)
  else (bi, bj, bs)
termination_by ahi - (bi + bs)
decreasing_by omega

/-- `SequenceMatcher(None, a, b).find_longest_match(alo, ahi, blo, bhi)`:
the dynamic program over rows `range(alo, ahi)`, then the two (non-junk)
extension loops; the two junk-extension loops never fire since `bjunk` is
empty. -/
def findLongestMatch (a b : List String) (alo ahi blo bhi : Nat) : Nat × Nat × Nat :=
  let st := (List.range' alo (ahi - alo)).foldl (dpStep a b blo bhi)
    ((fun _ => 0), (alo, blo, 0))
  let m := extendBack a b alo blo st.2.1 st.2.2.1 st.2.2.2
  extendFwd a b ahi bhi m.1 m.2.1 m.2.2

/-- The recursive block collection of `get_matching_blocks` (the Python
queue + sort produces exactly this in-order traversal).  `fuel` dominates the
interval sizes, which shrink at every recursive call. -/
def matchingBlocksAux (a b : List String) :
    Nat → Nat → Nat → Nat → Nat → List (Nat × Nat × Nat)
  | 0, _, _, _, _ => []
  | fuel + 1, alo, ahi, blo, bhi =>
    let m := findLongestMatch a b alo ahi blo bhi
    if m.2.2 = 0 then []
    else
      matchingBlocksAux a b fuel alo m.1 blo m.2.1 ++ m ::
        matchingBlocksAux a b fuel (m.1 + m.2.2) ahi (m.2.1 + m.2.2) bhi

/-- The adjacent-block merging pass at the end of `get_matching_blocks`. -/
def mergeBlocks : Nat × Nat × Nat → List (Nat × Nat × Nat) → List (Nat × Nat × Nat)
  | (i1, j1, k1), [] => if k1 ≠ 0 then [(i1, j1, k1)] else []
  | (i1, j1, k1), (i2, j2, k2) :: rest =>
    if i1 + k1 = i2 ∧ j1 + k1 = j2 then mergeBlocks (i1, j1, k1 + k2) rest
    else (if k1 ≠ 0 then [(i1, j1, k1)] else []) ++ mergeBlocks (i2, j2, k2) rest

/-- `get_matching_blocks`, with the trailing `(len(a), len(b), 0)` sentinel. -/
def getMatchingBlocks (a b : List String) : List (Nat × Nat × Nat) :=
  mergeBlocks (0, 0, 0)
    (matchingBlocksAux a b (a.length + b.length + 1) 0 a.length 0 b.length)
  ++ [(a.length, b.length, 0)]

/-- The loop of `get_opcodes`. -/
def opcodesAux : Nat → Nat → List (Nat × Nat × Nat) → List Op
  | _, _, [] => []
  | i, j, (ai, bj, size) :: rest =>
    (if i < ai ∧ j < bj then [("replace", i, ai, j, bj)]
     else if i < ai then [("delete", i, ai, j, bj)]
     else if j < bj then [("insert", i, ai, j, bj)]
     else [])
    ++ (if size ≠ 0 then [("equal", ai, ai + size, bj, bj + size)] else [])
    ++ opcodesAux (ai + size) (bj + size) rest

/-- `get_opcodes`. -/
def getOpcodes (a b : List String) : List Op :=
  opcodesAux 0 0 (getMatchingBlocks a b)

/-- `get_grouped_opcodes`: clamp a leading `equal` opcode to the last `n`
context lines (`codes[0] = tag, max(i1, i2-n), i2, max(j1, j2-n), j2`). -/
def clampFirst (n : Nat) : List Op → List Op
  | [] => []
  | (tag, i1, i2, j1, j2) :: rest =>
    if tag = "equal" then (tag, max i1 (i2 - n), i2, max j1 (j2 - n), j2) :: rest
    else (tag, i1, i2, j1, j2) :: rest

/-- `get_grouped_opcodes`: clamp a trailing `equal` opcode to the first `n`
context lines. -/
def clampLast (n : Nat) (codes : List Op) : List Op :=
  match codes.getLast? with
  | some (tag, i1, i2, j1, j2) =>
    if tag = "equal" then
      codes.dropLast ++ [(tag, i1, min i2 (i1 + n), j1, min j2 (j1 + n))]
    else codes
  | none => codes

/-- The grouping loop of `get_grouped_opcodes`: split at `equal` opcodes wider
than `nn = 2n`, and drop a final group that is a single `equal` opcode. -/
def groupSplit (nn n : Nat) : List Op → List Op → List (List Op)
  | group, [] =>
    if group ≠ [] ∧ ¬(group.length = 1 ∧ (group.headD ("", 0, 0, 0, 0)).1 = "equal")
    then [group] else []
  | group, (tag, i1, i2, j1, j2) :: rest =>
    if tag = "equal" ∧ i2 - i1 > nn then
      (group ++ [(tag, i1, min i2 (i1 + n), j1, min j2 (j1 + n))]) ::
        groupSplit nn n [(tag, max i1 (i2 - n), i2, max j1 (j2 - n), j2)] rest
    else groupSplit nn n (group ++ [(tag, i1, i2, j1, j2)]) rest

/-- `get_grouped_opcodes(n)` (note the dummy `[("equal", 0, 1, 0, 1)]` when
there are no opcodes at all). -/
def getGroupedOpcodes (a b : List String) (n : Nat) : List (List Op) :=
  let codes0 := getOpcodes a b
  let codes1 := if codes0 = [] then [("equal", 0, 1, 0, 1)] else codes0
  groupSplit (n + n) n [] (clampLast n (clampFirst n codes1))

/-- `difflib._format_range_unified`. -/
def formatRangeUnified (start stop : Nat) : String :=
  let beginning := start + 1
  let length := stop - start
  if length = 1 then toString beginning
  else toString (if length = 0 then beginning - 1 else beginning)
    ++ "," ++ toString length

/-- The per-opcode lines of a unified-diff hunk. -/
def opLines (a b : List String) (op : Op) : List String :=
  match op with
  | (tag, i1, i2, j1, j2) =>
    if tag = "equal" then ((a.drop i1).take (i2 - i1)).map (fun line => " " ++ line)
    else
      (if tag = "replace" ∨ tag = "delete"
       then ((a.drop i1).take (i2 - i1)).map (fun line => "-" ++ line) else [])
      ++ (if tag = "replace" ∨ tag = "insert"
          then ((b.drop j1).take (j2 - j1)).map (fun line => "+" ++ line) else [])

/-- One hunk of `unified_diff`: the `@@ -r +r @@` header then the lines. -/
def groupOut (a b : List String) (g : List Op) : List String :=
  let first := g.headD ("", 0, 0, 0, 0)
  let last := g.getLastD ("", 0, 0, 0, 0)
  ("@@ -" ++ formatRangeUnified first.2.1 last.2.2.1 ++ " +"
    ++ formatRangeUnified first.2.2.2.1 last.2.2.2.2 ++ " @@\n")
  :: (g.map (opLines a b)).flatten

/-- `difflib.unified_diff(a, b, fromfile, tofile)` with the default
`lineterm="\n"` and empty file dates: the two `---`/`+++` header lines are
emitted once, before the first group, and not at all if there are no groups. -/
def unifiedDiff (a b : List String) (fromfile tofile : String) (n : Nat) :
    List String :=
  let gs := getGroupedOpcodes a b n
  if gs = [] then []
  else ("--- " ++ fromfile ++ "\n") :: ("+++ " ++ tofile ++ "\n")
    :: (gs.map (groupOut a b)).flatten

/-- Proof-support notion for the matcher on identical sequences: the length of
the maximal suffix of the first `r` elements of `b` whose values are not
popular — precisely the diagonal chain length available to the dynamic
program at row `r - 1`. -/
def runLen (b : List String) : Nat → Nat
  | 0 => 0
  | r + 1 => if isPopular b (b.getD r "") then 0 else runLen b r + 1

/-- Invariant of the `find_longest_match` dynamic program on the full
symmetric range `(0, n, 0, n)` of a sequence against itself, after `r` rows:
column chains are bounded by the column run and by the current row run, the
diagonal entry is exact, the running best is on the diagonal and in range,
and its size dominates every run seen so far. -/
def DpInv (b : List String) (r : Nat) (st : (Nat → Nat) × Nat × Nat × Nat) : Prop :=
  (∀ j, st.1 j ≤ runLen b (j + 1)) ∧
  (∀ j, st.1 j ≤ runLen b r) ∧
  (∀ r', r' + 1 = r → st.1 r' = runLen b r) ∧
  st.2.1 = st.2.2.1 ∧
  st.2.1 + st.2.2.2 ≤ b.length ∧
  (∀ r', r' ≤ r → runLen b r' ≤ st.2.2.2)

/-- `diff()` (lines 92-105): open the backup file, resolve the platform path
(`p` stays unassigned on other platforms), open the system file, and print the
unified diff of their line lists labelled `before.json`/`after.json`. -/
def diffRun (plat : Platform) (home appdata : String) (fs : Fs) :
    Except PyError (List String) :=
  match fs "vscode-settings.jsonc" with
  | none => .error (.fileNotFound "vscode-settings.jsonc")
  | some backupContent =>
    match settingsPathRaw plat appdata with
    | none => .error .nameError
    | some praw =>
      match fs (expanduser home praw) with
      | none => .error (.fileNotFound (expanduser home praw))
      | some sysContent =>
        .ok (unifiedDiff (readLines backupContent) (readLines sysContent)
          "before.json" "after.json" 3)

/-- Shared body of `backup()` (lines 32-43) for the two recognised platforms
(the linux and win32 branches differ only in the live settings path and in
the shell copy command used): `extListOut`, the stdout of
`code --list-extensions`, is redirected verbatim into `vscode-extensions.txt`;
then the live settings file is copied to `vscode-settings.jsonc` by a shell
`cp`/`copy` (whose failure, e.g. a missing source file, is ignored by
`subprocess.run`, leaving the backup copy untouched). -/
def backupCore (live extListOut : String) (fs : Fs) : Fs :=
  let fs1 := fs.update "vscode-extensions.txt" extListOut
  match fs1 live with
  | some c => fs1.update "vscode-settings.jsonc" c
  | none => fs1

/-- `backup()` (lines 32-43): on other platforms neither copy branch runs and
only the extension list is written. -/
def backupRun (plat : Platform) (home appdata extListOut : String) (fs : Fs) : Fs :=
  match plat with
  | .linux => backupCore (home ++ "/.config/Code/User/settings.json") extListOut fs
  | .win32 => backupCore (appdata ++ "\\Code\\User\\settings.json") extListOut fs
  | .other => fs.update "vscode-extensions.txt" extListOut

/-! ### Helper lemmas -/

theorem mem_setDiff {x : String} {xs ys : List String} :
    x ∈ setDiff xs ys ↔ x ∈ xs ∧ x ∉ ys := by
  simp [setDiff, List.mem_dedup, List.mem_filter]

theorem nodup_setDiff (xs ys : List String) : (setDiff xs ys).Nodup :=
  List.nodup_dedup _

theorem setDiff_eq_nil {xs ys : List String} (h : ∀ x ∈ xs, x ∈ ys) :
    setDiff xs ys = [] := by
  unfold setDiff
  rw [List.dedup_eq_nil, List.filter_eq_nil_iff]
  intro a ha
  simp [h a ha]

/-- A string whose characters end differently from another's is not equal. -/
theorem string_ne_of_last_ne {s t : String}
    (h : s.data.getLast? ≠ t.data.getLast?) : s ≠ t := by
  intro he
  exact h (by rw [he])

/-- The last character of `pre ++ suf` is the last character of `suf`. -/
theorem data_getLast?_append (pre suf : String) (h : suf.data ≠ []) :
    (pre ++ suf).data.getLast? = suf.data.getLast? := by
  rw [String.data_append]
  exact List.getLast?_append_of_ne_nil _ h

/-! ### C1 -/

/-- C1: `comp` prints exactly the stripped live identifiers absent from the
recorded list under the `* CODE` (remote) section and exactly the recorded
identifiers absent live under the `* FILE` (local) section, duplicates
suppressed; an empty difference omits its section entirely, and when the two
are equal as sets `comp` prints nothing at all. -/
theorem c1_comp_prints_set_differences (fileContent codeStdout : String) :
    (∀ x, x ∈ compCodeItems fileContent codeStdout ↔
      (x ∈ extensionsFromCode codeStdout ∧ x ∉ extensionsFromTxt fileContent)) ∧
    (compCodeItems fileContent codeStdout).Nodup ∧
    (compCodeItems fileContent codeStdout = [] →
      compCodeSection fileContent codeStdout = []) ∧
    (compCodeItems fileContent codeStdout ≠ [] →
      compCodeSection fileContent codeStdout =
        "" :: "* CODE" :: dashes40 :: compCodeItems fileContent codeStdout) ∧
    (∀ x, x ∈ compFileItems fileContent codeStdout ↔
      (x ∈ extensionsFromTxt fileContent ∧ x ∉ extensionsFromCode codeStdout)) ∧
    (compFileItems fileContent codeStdout).Nodup ∧
    (compFileItems fileContent codeStdout = [] →
      compFileSection fileContent codeStdout = []) ∧
    (compFileItems fileContent codeStdout ≠ [] →
      compFileSection fileContent codeStdout =
        "" :: "* FILE" :: dashes40 :: compFileItems fileContent codeStdout) ∧
    ((∀ x, x ∈ extensionsFromTxt fileContent ↔ x ∈ extensionsFromCode codeStdout) →
      compOutput fileContent codeStdout = []) := by
  refine ⟨fun x => mem_setDiff, nodup_setDiff _ _, ?_, ?_, fun x => mem_setDiff,
    nodup_setDiff _ _, ?_, ?_, ?_⟩
  · intro h; simp [compCodeSection, h]
  · intro h; simp [compCodeSection, h]
  · intro h; simp [compFileSection, h]
  · intro h; simp [compFileSection, h]
  · intro h
    have h1 : compCodeItems fileContent codeStdout = [] :=
      setDiff_eq_nil (fun x hx => (h x).mpr hx)
    have h2 : compFileItems fileContent codeStdout = [] :=
      setDiff_eq_nil (fun x hx => (h x).mp hx)
    simp [compOutput, compCodeSection, compFileSection, h1, h2]

/-- Witness for C1: concrete equal sets print nothing. -/
theorem c1_witness :
    compOutput "alpha.one\nbeta.two\n" "beta.two\nalpha.one\n" = [] := by
  apply (c1_comp_prints_set_differences "alpha.one\nbeta.two\n"
    "beta.two\nalpha.one\n").2.2.2.2.2.2.2.2
  intro x
  rw [show extensionsFromTxt "alpha.one\nbeta.two\n" = ["alpha.one", "beta.two"]
      from rfl,
    show extensionsFromCode "beta.two\nalpha.one\n" = ["beta.two", "alpha.one"]
      from rfl]
  simp only [List.mem_cons, List.not_mem_nil, or_false]
  tauto

/-! ### C4 -/

/-- C4: any invocation whose argument list is not exactly one recognised
command name prints the usage message to stdout and exits 0, running no
command. -/
theorem c4_bad_args_print_usage_exit_zero (prog : String) (args : List String)
    (h : ∀ cmd ∈ FUNCTIONS_keys, args ≠ [cmd]) :
    pyMain (prog :: args) = .printedUsage (usageLines prog) 0 := by
  unfold pyMain
  rw [if_neg]
  · rfl
  · rintro ⟨hlen, hmem⟩
    rcases args with _ | ⟨a, _ | ⟨b, t⟩⟩
    · simp at hlen
    · exact h a hmem rfl
    · simp at hlen

/-- Witness for C4: an unrecognised argument prints usage and exits 0. -/
theorem c4_witness :
    pyMain ["vscode-env-manager.py", "frobnicate"] =
      .printedUsage (usageLines "vscode-env-manager.py") 0 :=
  c4_bad_args_print_usage_exit_zero "vscode-env-manager.py" ["frobnicate"]
    (by decide)

/-! ### C5 -/

/-- C5: `install` invokes `code --install-extension` exactly once per
identifier recorded but not live (membership characterisation plus
no-duplicates), the attempted invocation sequence is independent of the
individual results (no failure blocks the rest), and `uninstall` is
symmetric. -/
theorem c5_install_uninstall_once_per_diff (fileContent codeStdout ident : String)
    (result : List String → Bool) :
    ((["code", "--install-extension", ident] ∈ installCmds fileContent codeStdout) ↔
      (ident ∈ extensionsFromTxt fileContent ∧ ident ∉ extensionsFromCode codeStdout)) ∧
    (installCmds fileContent codeStdout).Nodup ∧
    (installRun fileContent codeStdout result).map Prod.fst =
      installCmds fileContent codeStdout ∧
    ((["code", "--uninstall-extension", ident] ∈ uninstallCmds fileContent codeStdout) ↔
      (ident ∈ extensionsFromCode codeStdout ∧ ident ∉ extensionsFromTxt fileContent)) ∧
    (uninstallCmds fileContent codeStdout).Nodup ∧
    (uninstallRun fileContent codeStdout result).map Prod.fst =
      uninstallCmds fileContent codeStdout := by
  refine ⟨?_, ?_, ?_, ?_, ?_, ?_⟩
  · rw [installCmds, List.mem_map]
    constructor
    · rintro ⟨a, ha, he⟩
      obtain rfl : a = ident := by simpa using he
      exact mem_setDiff.mp ha
    · intro hid
      exact ⟨ident, mem_setDiff.mpr hid, rfl⟩
  · exact (nodup_setDiff _ _).map (fun a b hab => by simpa using hab)
  · rw [installRun, runAll, List.map_map]
    exact List.map_id _
  · rw [uninstallCmds, List.mem_map]
    constructor
    · rintro ⟨a, ha, he⟩
      obtain rfl : a = ident := by simpa using he
      exact mem_setDiff.mp ha
    · intro hid
      exact ⟨ident, mem_setDiff.mpr hid, rfl⟩
  · exact (nodup_setDiff _ _).map (fun a b hab => by simpa using hab)
  · rw [uninstallRun, runAll, List.map_map]
    exact List.map_id _

/-- Witness for C5: a recorded identifier absent live is installed. -/
theorem c5_witness :
    ["code", "--install-extension", "vendor.ext"] ∈ installCmds "vendor.ext\n" "" :=
  (c5_install_uninstall_once_per_diff "vendor.ext\n" "" "vendor.ext"
    (fun _ => true)).1.mpr (by decide)

/-! ### C6 support -/

theorem universalNewlines_eq_self {l : List Char} (h : ∀ c ∈ l, c ≠ '\r') :
    universalNewlines l = l := by
  induction l with
  | nil => rfl
  | cons c rest ih =>
    have hc : c ≠ '\r' := h c (List.mem_cons_self c rest)
    rw [universalNewlines.eq_4 c rest (fun _ hcr _ => hc hcr) (fun hcr => hc hcr)]
    exact congrArg (List.cons c) (ih fun d hd => h d (List.mem_cons_of_mem c hd))

theorem splitLinesAux_single (acc l : List Char) (h : ∀ c ∈ l, c ≠ '\n') :
    splitLinesAux acc (l ++ ['\n']) = [String.mk (acc.reverse ++ (l ++ ['\n']))] := by
  induction l generalizing acc with
  | nil =>
    show splitLinesAux acc ['\n'] = _
    rw [splitLinesAux.eq_2, splitLinesAux.eq_1]
    simp
  | cons c rest ih =>
    have hc : c ≠ '\n' := h c (List.mem_cons_self c rest)
    show splitLinesAux acc (c :: (rest ++ ['\n'])) = _
    rw [splitLinesAux.eq_3 acc c _ (fun e => hc e)]
    rw [ih (c :: acc) (fun d hd => h d (List.mem_cons_of_mem c hd))]
    simp

theorem dropWhile_append_of_nil {p : Char → Bool} {l1 : List Char} (l2 : List Char)
    (h : l1.dropWhile p = []) : (l1 ++ l2).dropWhile p = l2.dropWhile p := by
  induction l1 with
  | nil => rfl
  | cons a l ih =>
    rw [List.cons_append, List.dropWhile_cons]
    rw [List.dropWhile_cons] at h
    split at h
    · simp_all
    · simp_all

theorem dropWhile_append_of_ne_nil {p : Char → Bool} {l1 : List Char} (l2 : List Char)
    (h : l1.dropWhile p ≠ []) : (l1 ++ l2).dropWhile p = l1.dropWhile p ++ l2 := by
  induction l1 with
  | nil => simp at h
  | cons a l ih =>
    rw [List.cons_append, List.dropWhile_cons]
    rw [List.dropWhile_cons] at h
    split at h
    · simp_all [List.dropWhile_cons]
    · simp_all [List.dropWhile_cons]

/-- Stripping is unaffected by a trailing newline. -/
theorem pyStrip_append_newline (s : String) : pyStrip (s ++ "\n") = pyStrip s := by
  unfold pyStrip
  rw [String.data_append]
  show String.mk ((((s.data ++ ['\n']).dropWhile pyIsSpace).reverse.dropWhile
    pyIsSpace).reverse) = _
  by_cases h : s.data.dropWhile pyIsSpace = []
  · rw [dropWhile_append_of_nil _ h, h]
    rfl
  · rw [dropWhile_append_of_ne_nil _ h, List.reverse_append,
      show (['\n'] : List Char).reverse = ['\n'] from rfl,
      List.singleton_append, List.dropWhile_cons, if_pos (by decide)]

theorem readLines_single (s : String) (h : ∀ c ∈ s.data, c ≠ '\n' ∧ c ≠ '\r') :
    readLines (s ++ "\n") = [s ++ "\n"] := by
  have hr : ∀ c ∈ s.data ++ ['\n'], c ≠ '\r' := by
    intro c hc
    rcases List.mem_append.mp hc with h1 | h1
    · exact (h c h1).2
    · simp only [List.mem_singleton] at h1
      subst h1
      decide
  have hn : ∀ c ∈ s.data, c ≠ '\n' := fun c hc => (h c hc).1
  unfold readLines
  rw [show (s ++ "\n").data = s.data ++ ['\n'] from String.data_append s "\n"]
  rw [universalNewlines_eq_self hr, splitLinesAux_single [] s.data hn]
  have : String.mk (List.reverse [] ++ (s.data ++ ['\n'])) = s ++ "\n" := by
    apply String.ext
    rw [String.data_append]
    simp
  rw [this]

theorem readLinesBin_single (s : String) (h : ∀ c ∈ s.data, c ≠ '\n') :
    readLinesBin (s ++ "\n") = [s ++ "\n"] := by
  unfold readLinesBin
  rw [show (s ++ "\n").data = s.data ++ ['\n'] from String.data_append s "\n"]
  rw [splitLinesAux_single [] s.data h]
  have : String.mk (List.reverse [] ++ (s.data ++ ['\n'])) = s ++ "\n" := by
    apply String.ext
    rw [String.data_append]
    simp
  rw [this]

theorem setDiff_single (x y : String) :
    setDiff [x] [y] = if x = y then [] else [x] := by
  by_cases h : x = y
  · subst h
    simp [setDiff]
  · simp [setDiff, h]

/-! ### C6 -/

/-- C6 counterexample: the recorded line `" a.b "` and the live line `"a.b"`
differ as exact strings (in surrounding whitespace), so under the claim they
should compare unequal and `comp` should print both sections; instead the
code strips the lines and prints nothing. -/
theorem c6_counterexample :
    compOutput " a.b \n" "a.b\n" = [] ∧ (" a.b " : String) ≠ "a.b" := by
  constructor
  · decide
  · decide

/-- C6 amended: in `comp` (and therefore in the `setDiff`-based `install` and
`uninstall` loops, which strip lines the same way) a recorded line and a live
line are considered equal iff their whitespace-stripped forms are equal as
exact strings; on identifiers that carry no surrounding whitespace this is
exact, case-sensitive string equality. -/
theorem c6_strip_equality (s t : String)
    (hs : ∀ c ∈ s.data, c ≠ '\n' ∧ c ≠ '\r')
    (ht : ∀ c ∈ t.data, c ≠ '\n') :
    (compOutput (s ++ "\n") (t ++ "\n") = [] ↔ pyStrip s = pyStrip t) ∧
    (pyStrip s = s → pyStrip t = t →
      (compOutput (s ++ "\n") (t ++ "\n") = [] ↔ s = t)) := by
  have hTxt : extensionsFromTxt (s ++ "\n") = [pyStrip s] := by
    unfold extensionsFromTxt
    rw [readLines_single s hs]
    simp [pyStrip_append_newline]
  have hCode : extensionsFromCode (t ++ "\n") = [pyStrip t] := by
    unfold extensionsFromCode
    rw [readLinesBin_single t ht]
    simp [pyStrip_append_newline]
  have key : compOutput (s ++ "\n") (t ++ "\n") = [] ↔ pyStrip s = pyStrip t := by
    unfold compOutput compCodeSection compFileSection compCodeItems compFileItems
    rw [hTxt, hCode, setDiff_single, setDiff_single]
    by_cases h : pyStrip s = pyStrip t
    · simp [h]
    · have h' : pyStrip t ≠ pyStrip s := fun e => h e.symm
      simp [h, h']
  refine ⟨key, fun hss htt => ?_⟩
  rw [key, hss, htt]

/-- Witness for C6 (amended): equal clean identifiers print nothing; two
identifiers differing only in letter case do diverge. -/
theorem c6_witness :
    compOutput ("x.y" ++ "\n") ("x.y" ++ "\n") = [] ∧
    compOutput ("A.b" ++ "\n") ("a.b" ++ "\n") ≠ [] := by
  constructor
  · exact (c6_strip_equality "x.y" "x.y" (by decide) (by decide)).1.mpr rfl
  · intro hcontra
    have h2 := (c6_strip_equality "A.b" "a.b" (by decide) (by decide)).1.mp hcontra
    exact absurd h2 (by decide)

/-! ### C8 support -/

theorem Fs.update_self (fs : Fs) (p c : String) : fs.update p c p = some c := by
  simp [Fs.update]

theorem Fs.update_other (fs : Fs) (p c q : String) (h : q ≠ p) :
    fs.update p c q = fs q := by
  simp [Fs.update, h]

/-- Appending a suffix with a known last character yields a string different
from any string with a different last character. -/
theorem append_ne_of_last_ne (ch : Char) (pre suf : String) {t : String}
    (hs : suf.data.getLast? = some ch) (hne : suf.data ≠ [])
    (ht : t.data.getLast? ≠ some ch) : pre ++ suf ≠ t := by
  apply string_ne_of_last_ne
  rw [data_getLast?_append pre suf hne, hs]
  exact fun e => ht e.symm

theorem backupCore_idem (live out : String) (fs : Fs)
    (h1 : live ≠ "vscode-extensions.txt") (h2 : live ≠ "vscode-settings.jsonc") :
    backupCore live out (backupCore live out fs) "vscode-extensions.txt" =
      backupCore live out fs "vscode-extensions.txt" ∧
    backupCore live out (backupCore live out fs) "vscode-settings.jsonc" =
      backupCore live out fs "vscode-settings.jsonc" := by
  unfold backupCore
  cases hl : (fs.update "vscode-extensions.txt" out) live with
  | some c =>
    simp only [hl]
    have hl2 : (((fs.update "vscode-extensions.txt" out).update
        "vscode-settings.jsonc" c).update "vscode-extensions.txt" out) live = some c := by
      rw [Fs.update_other _ _ _ _ h1, Fs.update_other _ _ _ _ h2, hl]
    simp only [hl2]
    constructor
    · rw [Fs.update_other _ _ _ _ (by decide), Fs.update_self,
        Fs.update_other _ _ _ _ (by decide), Fs.update_self]
    · rw [Fs.update_self, Fs.update_self]
  | none =>
    simp only [hl]
    have hl2 : ((fs.update "vscode-extensions.txt" out).update
        "vscode-extensions.txt" out) live = none := by
      rw [Fs.update_other _ _ _ _ h1, Fs.update_other _ _ _ _ h1]
      rw [Fs.update_other _ _ _ _ h1] at hl
      exact hl
    simp only [hl2]
    constructor
    · rw [Fs.update_self, Fs.update_self]
    · rw [Fs.update_other _ _ _ _ (by decide), Fs.update_other _ _ _ _ (by decide)]

/-! ### C8 -/

/-- C8: running `backup` twice with the same external-tool output and no
change to the live settings file leaves both `vscode-extensions.txt` and
`vscode-settings.jsonc` byte-identical to their state after the first run. -/
theorem c8_backup_idempotent (plat : Platform) (home appdata extListOut : String)
    (fs : Fs) :
    backupRun plat home appdata extListOut (backupRun plat home appdata extListOut fs)
        "vscode-extensions.txt" =
      backupRun plat home appdata extListOut fs "vscode-extensions.txt" ∧
    backupRun plat home appdata extListOut (backupRun plat home appdata extListOut fs)
        "vscode-settings.jsonc" =
      backupRun plat home appdata extListOut fs "vscode-settings.jsonc" := by
  cases plat with
  | linux =>
    exact backupCore_idem _ _ fs
      (append_ne_of_last_ne 'n' home "/.config/Code/User/settings.json"
        (by decide) (by decide) (by decide))
      (append_ne_of_last_ne 'n' home "/.config/Code/User/settings.json"
        (by decide) (by decide) (by decide))
  | win32 =>
    exact backupCore_idem _ _ fs
      (append_ne_of_last_ne 'n' appdata "\\Code\\User\\settings.json"
        (by decide) (by decide) (by decide))
      (append_ne_of_last_ne 'n' appdata "\\Code\\User\\settings.json"
        (by decide) (by decide) (by decide))
  | other =>
    constructor
    · rw [show backupRun .other home appdata extListOut fs =
          fs.update "vscode-extensions.txt" extListOut from rfl]
      rw [show ∀ g : Fs, backupRun .other home appdata extListOut g =
          g.update "vscode-extensions.txt" extListOut from fun g => rfl]
      rw [Fs.update_self, Fs.update_self]
    · rw [show backupRun .other home appdata extListOut fs =
          fs.update "vscode-extensions.txt" extListOut from rfl]
      rw [show ∀ g : Fs, backupRun .other home appdata extListOut g =
          g.update "vscode-extensions.txt" extListOut from fun g => rfl]
      rw [Fs.update_other _ _ _ _ (by decide), Fs.update_other _ _ _ _ (by decide)]

/-! ### Restore / diff support -/

theorem snapName_last (now : Nat) : (snapName now).data.getLast? = some 'c' := by
  unfold snapName
  rw [data_getLast?_append _ ".jsonc" (by decide)]
  decide

theorem snapName_ne_backup (now : Nat) : snapName now ≠ "vscode-settings.jsonc" := by
  intro h
  have h15 := congrArg (fun s : String => s.data[15]?) h
  simp only [snapName, String.data_append] at h15
  rw [List.getElem?_append, if_pos (by
        simp only [List.length_append, List.length_cons, List.length_nil]
        omega),
      List.getElem?_append, if_pos (by decide)] at h15
  exact absurd h15 (by decide)

/-- The resolved settings path never collides with a snapshot filename (it
ends in `n`, a snapshot name in `c`). -/
theorem settingsPathRaw_ne_snapName (plat : Platform) (appdata : String)
    (now : Nat) {praw : String} (h : settingsPathRaw plat appdata = some praw) :
    praw ≠ snapName now := by
  cases plat with
  | linux =>
    obtain rfl := (Option.some.inj h).symm
    apply string_ne_of_last_ne
    rw [snapName_last]
    decide
  | win32 =>
    obtain rfl := (Option.some.inj h).symm
    apply string_ne_of_last_ne
    rw [data_getLast?_append _ "\\Code\\User\\settings.json" (by decide), snapName_last]
    decide
  | other => simp [settingsPathRaw] at h

/-- Evaluation of a successful `restore`: both reads succeed, so the snapshot
is written first and then the raw path is overwritten, with the full event
trace. -/
theorem restoreRun_ok (plat : Platform) (home appdata : String) (now : Nat)
    (fs : Fs) (praw liveContent backupContent : String)
    (h1 : settingsPathRaw plat appdata = some praw)
    (h2 : fs (expanduser home praw) = some liveContent)
    (h3 : fs "vscode-settings.jsonc" = some backupContent) :
    restoreRun plat home appdata now fs =
      (.ok (), (fs.update (snapName now) liveContent).update praw backupContent,
       [.openR (expanduser home praw), .openW (snapName now),
        .write (snapName now) liveContent, .close (snapName now),
        .close (expanduser home praw), .openR "vscode-settings.jsonc",
        .openW praw, .write praw backupContent, .close praw,
        .close "vscode-settings.jsonc"]) := by
  have hbk : (fs.update (snapName now) liveContent) "vscode-settings.jsonc" =
      some backupContent := by
    rw [Fs.update_other _ _ _ _ (fun e => snapName_ne_backup now e.symm), h3]
  unfold restoreRun
  rw [h1]
  simp only [h2, hbk]
  rfl

/-! ### C3 -/

/-- C3: in every execution of `restore` that reaches the overwrite step, the
timestamped snapshot holding the pre-restore live content is written and
closed strictly before the settings path is first opened for writing (the
close of the snapshot precedes the first `openW` of the target path in the
event trace), and the resulting filesystem holds the pre-restore content in
the snapshot file. -/
theorem c3_snapshot_closed_before_live_open (plat : Platform)
    (home appdata : String) (now : Nat) (fs : Fs)
    (praw liveContent backupContent : String)
    (h1 : settingsPathRaw plat appdata = some praw)
    (h2 : fs (expanduser home praw) = some liveContent)
    (h3 : fs "vscode-settings.jsonc" = some backupContent) :
    ((restoreRun plat home appdata now fs).2.2.indexOf (.close (snapName now)) <
      (restoreRun plat home appdata now fs).2.2.indexOf (.openW praw)) ∧
    Ev.close (snapName now) ∈ (restoreRun plat home appdata now fs).2.2 ∧
    Ev.openW praw ∈ (restoreRun plat home appdata now fs).2.2 ∧
    (restoreRun plat home appdata now fs).2.1 (snapName now) = some liveContent := by
  have hps : praw ≠ snapName now := settingsPathRaw_ne_snapName plat appdata now h1
  have main := restoreRun_ok plat home appdata now fs praw liveContent backupContent
    h1 h2 h3
  rw [main]
  refine ⟨?_, ?_, ?_, ?_⟩
  · have hb : (Ev.openW (snapName now) == Ev.openW praw) = false := by
      rw [beq_eq_false_iff_ne]
      intro e
      exact hps (Ev.openW.inj e).symm
    simp [List.indexOf_cons, hb]
  · simp
  · simp
  · show ((fs.update (snapName now) liveContent).update praw backupContent)
        (snapName now) = some liveContent
    rw [Fs.update_other _ _ _ _ (fun e => hps e.symm), Fs.update_self]

/-- Witness for C3: a concrete linux restore; the snapshot close (index 3)
precedes the settings-path `openW` (index 6), and the snapshot holds the
pre-restore content. -/
theorem c3_witness :
    (((restoreRun .linux "/home/u" "" 7 (fun q =>
        if q = "/home/u/.config/Code/User/settings.json" then some "A"
        else if q = "vscode-settings.jsonc" then some "B" else none)).2.2.indexOf
          (.close (snapName 7)) <
      (restoreRun .linux "/home/u" "" 7 (fun q =>
        if q = "/home/u/.config/Code/User/settings.json" then some "A"
        else if q = "vscode-settings.jsonc" then some "B" else none)).2.2.indexOf
          (.openW "~/.config/Code/User/settings.json"))) ∧
    (restoreRun .linux "/home/u" "" 7 (fun q =>
        if q = "/home/u/.config/Code/User/settings.json" then some "A"
        else if q = "vscode-settings.jsonc" then some "B" else none)).2.1
      (snapName 7) = some "A" := by
  have h := c3_snapshot_closed_before_live_open .linux "/home/u" "" 7
    (fun q =>
      if q = "/home/u/.config/Code/User/settings.json" then some "A"
      else if q = "vscode-settings.jsonc" then some "B" else none)
    "~/.config/Code/User/settings.json" "A" "B" rfl (by decide) (by decide)
  exact ⟨h.1, h.2.2.2⟩

/-! ### C2 -/

/-- C2 (code bug): at the failing input — linux, live settings content `A`,
fixed backup content `B` — `restore` completes, yet the platform settings
path still holds `A`; the backup content `B` went to the literal unexpanded
path `~/.config/Code/User/settings.json`, because line 123 opens `p` rather
than `p.expanduser()` (the read two lines earlier does expand).  In a real
run `open(p, "w")` on that relative path raises `FileNotFoundError`; either
way the platform settings file is never overwritten, contradicting the
claim. -/
theorem c2_restore_writes_unexpanded_path :
    (restoreRun .linux "/home/u" "" 5 (fun q =>
        if q = "/home/u/.config/Code/User/settings.json" then some "A"
        else if q = "vscode-settings.jsonc" then some "B" else none)).1 =
      .ok () ∧
    (restoreRun .linux "/home/u" "" 5 (fun q =>
        if q = "/home/u/.config/Code/User/settings.json" then some "A"
        else if q = "vscode-settings.jsonc" then some "B" else none)).2.1
      "/home/u/.config/Code/User/settings.json" = some "A" ∧
    (restoreRun .linux "/home/u" "" 5 (fun q =>
        if q = "/home/u/.config/Code/User/settings.json" then some "A"
        else if q = "vscode-settings.jsonc" then some "B" else none)).2.1
      "~/.config/Code/User/settings.json" = some "B" := by
  refine ⟨rfl, rfl, rfl⟩

/-! ### C10 -/

/-- C10: when the fixed backup file `vscode-settings.jsonc` is missing,
`restore` stops with a FileNotFoundError on it — after the snapshot block
(both its files already closed) and before the settings path is opened for
writing (no `openW` of it in the trace) — leaving the live settings content
unchanged while the snapshot of it exists. -/
theorem c10_missing_backup_aborts_before_live_write (plat : Platform)
    (home appdata : String) (now : Nat) (fs : Fs) (praw liveContent : String)
    (h1 : settingsPathRaw plat appdata = some praw)
    (h2 : fs (expanduser home praw) = some liveContent)
    (h3 : fs "vscode-settings.jsonc" = none) :
    (restoreRun plat home appdata now fs).1 =
      .error (.fileNotFound "vscode-settings.jsonc") ∧
    (restoreRun plat home appdata now fs).2.1 (expanduser home praw) =
      some liveContent ∧
    (restoreRun plat home appdata now fs).2.1 praw = fs praw ∧
    (restoreRun plat home appdata now fs).2.1 (snapName now) = some liveContent ∧
    Ev.openW praw ∉ (restoreRun plat home appdata now fs).2.2 := by
  have hps : praw ≠ snapName now := settingsPathRaw_ne_snapName plat appdata now h1
  have hbk : (fs.update (snapName now) liveContent) "vscode-settings.jsonc" = none := by
    rw [Fs.update_other _ _ _ _ (fun e => snapName_ne_backup now e.symm), h3]
  have main : restoreRun plat home appdata now fs =
      (.error (.fileNotFound "vscode-settings.jsonc"),
       fs.update (snapName now) liveContent,
       [.openR (expanduser home praw), .openW (snapName now),
        .write (snapName now) liveContent, .close (snapName now),
        .close (expanduser home praw)]) := by
    unfold restoreRun
    rw [h1]
    simp only [h2, hbk]
  rw [main]
  refine ⟨rfl, ?_, ?_, ?_, ?_⟩
  · show (fs.update (snapName now) liveContent) (expanduser home praw) =
      some liveContent
    by_cases he : expanduser home praw = snapName now
    · rw [he, Fs.update_self]
    · rw [Fs.update_other _ _ _ _ he, h2]
  · show (fs.update (snapName now) liveContent) praw = fs praw
    rw [Fs.update_other _ _ _ _ hps]
  · show (fs.update (snapName now) liveContent) (snapName now) = some liveContent
    rw [Fs.update_self]
  · intro hmem
    simp only [List.mem_cons, List.not_mem_nil, or_false] at hmem
    rcases hmem with h | h | h | h | h <;> first
      | exact Ev.noConfusion h
      | exact hps (Ev.openW.inj h)

/-- Witness for C10: concrete win32 filesystem without the backup file. -/
theorem c10_witness :
    (restoreRun .win32 "" "C:\\Users\\u\\AppData\\Roaming" 9 (fun q =>
        if q = "C:\\Users\\u\\AppData\\Roaming\\Code\\User\\settings.json"
        then some "LIVE" else none)).1 =
      .error (.fileNotFound "vscode-settings.jsonc") ∧
    (restoreRun .win32 "" "C:\\Users\\u\\AppData\\Roaming" 9 (fun q =>
        if q = "C:\\Users\\u\\AppData\\Roaming\\Code\\User\\settings.json"
        then some "LIVE" else none)).2.1
      "C:\\Users\\u\\AppData\\Roaming\\Code\\User\\settings.json" = some "LIVE" ∧
    (restoreRun .win32 "" "C:\\Users\\u\\AppData\\Roaming" 9 (fun q =>
        if q = "C:\\Users\\u\\AppData\\Roaming\\Code\\User\\settings.json"
        then some "LIVE" else none)).2.1 (snapName 9) = some "LIVE" := by
  have h := c10_missing_backup_aborts_before_live_write .win32 ""
    "C:\\Users\\u\\AppData\\Roaming" 9
    (fun q =>
      if q = "C:\\Users\\u\\AppData\\Roaming\\Code\\User\\settings.json"
      then some "LIVE" else none)
    "C:\\Users\\u\\AppData\\Roaming\\Code\\User\\settings.json" "LIVE"
    rfl (by decide) (by decide)
  exact ⟨h.1, h.2.1, h.2.2.2.1⟩

/-! ### C9 -/

/-- C9 counterexample: on an unsupported platform both operations fail with
the unbound-local-variable error (`p` is never assigned), and `restore`'s
event trace is empty — no settings path is ever opened, let alone a
nonexistent one, contradicting the claim that the failure happens at the
attempt to open a nonexistent settings path. -/
theorem c9_counterexample :
    restoreRun .other "/home/u" "" 0 (fun _ => some "X") =
      (.error .nameError, (fun _ => some "X"), []) ∧
    diffRun .other "/home/u" "" (fun _ => some "X") = .error .nameError := by
  exact ⟨rfl, rfl⟩

/-- C9 amended: on a platform that is neither linux nor win32, `diff` (once it
has opened the backup file) and `restore` both fail — but with the
unbound-variable (`UnboundLocalError`) failure at the first use of the
unassigned path variable, before any settings path is computed or opened
(restore's file-event trace is empty). -/
theorem c9_unsupported_platform_name_error (home appdata : String) (now : Nat)
    (fs : Fs) (backupContent : String)
    (hb : fs "vscode-settings.jsonc" = some backupContent) :
    restoreRun .other home appdata now fs = (.error .nameError, fs, []) ∧
    diffRun .other home appdata fs = .error .nameError := by
  constructor
  · rfl
  · unfold diffRun
    rw [hb]
    rfl

/-- Witness for C9: a concrete filesystem holding a backup file. -/
theorem c9_witness :
    restoreRun .other "/root" "D:\\" 11 (fun _ => some "{}") =
      (.error .nameError, (fun _ => some "{}"), []) ∧
    diffRun .other "/root" "D:\\" (fun _ => some "{}") = .error .nameError :=
  c9_unsupported_platform_name_error "/root" "D:\\" 11 (fun _ => some "{}") "{}" rfl

/-! ### C7 support: `find_longest_match` on identical sequences -/

theorem runLen_le (b : List String) : ∀ m, runLen b m ≤ m
  | 0 => le_rfl
  | m + 1 => by
    rw [runLen]
    split
    · omega
    · have := runLen_le b m
      omega

theorem runLen_succ_not_popular {b : List String} {m : Nat}
    (hp : isPopular b (b.getD m "") = false) :
    runLen b (m + 1) = runLen b m + 1 := by
  have hcon : ¬ (isPopular b (b.getD m "") = true) := by
    rw [hp]
    exact fun h => Bool.noConfusion h
  rw [runLen, if_neg hcon]

theorem runLen_succ_popular {b : List String} {m : Nat}
    (hp : isPopular b (b.getD m "") = true) :
    runLen b (m + 1) = 0 := by
  rw [runLen, if_pos hp]

theorem takeWhile_eq_self_of_all {α : Type} (p : α → Bool) :
    ∀ l : List α, (∀ x ∈ l, p x = true) → l.takeWhile p = l
  | [], _ => rfl
  | a :: l, h => by
    rw [List.takeWhile_cons, if_pos (h a (List.mem_cons_self a l))]
    rw [takeWhile_eq_self_of_all p l (fun x hx => h x (List.mem_cons_of_mem a hx))]

/-- Membership in `b2j`. -/
theorem mem_b2j {b : List String} {v : String} {j : Nat} (h : j ∈ b2j b v) :
    j < b.length ∧ b.getD j "" = v ∧ isPopular b v = false := by
  unfold b2j at h
  by_cases hp : isPopular b v
  · rw [if_pos hp] at h
    exact absurd h (List.not_mem_nil j)
  · rw [if_neg hp] at h
    have h1 := List.mem_filter.mp h
    refine ⟨List.mem_range.mp h1.1, by simpa using h1.2, by simpa using hp⟩

/-- On the full symmetric range, the `continue`/`break` trimming of the
position list is the identity. -/
theorem dpStep_js_eq (b : List String) (v : String) :
    ((b2j b v).filter (fun j => decide (0 ≤ j))).takeWhile
      (fun j => decide (j < b.length)) = b2j b v := by
  rw [List.filter_eq_self.mpr (fun j _ => by simp)]
  exact takeWhile_eq_self_of_all _ _ (fun j hj => by simp [(mem_b2j hj).1])

/-- Closed form of one inner-loop step. -/
theorem dpInner_eq (j2p : Nat → Nat) (i : Nat)
    (st2 : (Nat → Nat) × Nat × Nat × Nat) (j : Nat) :
    dpInner j2p i st2 j =
      ((fun j' => if j' = j then kv j2p j else st2.1 j'),
       if kv j2p j > st2.2.2.2
       then (i + 1 - kv j2p j, j + 1 - kv j2p j, kv j2p j)
       else st2.2) := by
  unfold dpInner
  by_cases h : kv j2p j > st2.2.2.2
  · simp only [if_pos h]
  · simp only [if_neg h]

/-- If every candidate chain in `L` is dominated by the current best size,
the fold leaves the best unchanged. -/
theorem foldl_dpInner_best_const (j2p : Nat → Nat) (i : Nat) (L : List Nat)
    (nj0 : Nat → Nat) (best : Nat × Nat × Nat)
    (h : ∀ j ∈ L, kv j2p j ≤ best.2.2) :
    (L.foldl (dpInner j2p i) (nj0, best)).2 = best := by
  induction L generalizing nj0 with
  | nil => rfl
  | cons j L ih =>
    rw [List.foldl_cons, dpInner_eq,
      if_neg (by
        have := h j (List.mem_cons_self j L)
        show ¬ kv j2p j > best.2.2
        omega)]
    exact ih _ (fun j' hj' => h j' (List.mem_cons_of_mem j hj'))

/-- The new row built by the fold, pointwise: position `j'` holds its chain
length `kv j2p j'` if visited, `nj0 j'` otherwise. -/
theorem foldl_dpInner_nj {j2p : Nat → Nat} {i : Nat} (L : List Nat)
    (nj0 : Nat → Nat) (best : Nat × Nat × Nat) (j' : Nat) :
    (L.foldl (dpInner j2p i) (nj0, best)).1 j' =
      if j' ∈ L then kv j2p j' else nj0 j' := by
  induction L generalizing nj0 best with
  | nil => simp
  | cons j L ih =>
    rw [List.foldl_cons, dpInner_eq]
    rw [ih]
    by_cases hjL : j' ∈ L
    · simp [hjL, List.mem_cons]
    · by_cases hjj : j' = j
      · subst hjj
        simp [hjL]
      · simp [hjL, hjj, List.mem_cons]

theorem range'_split (s m k : Nat) :
    List.range' s (m + k) = List.range' s m ++ List.range' (s + m) k := by
  induction m generalizing s with
  | zero => simp
  | succ m ih =>
    rw [show m + 1 + k = (m + k) + 1 from by omega]
    rw [List.range'_succ, List.range'_succ, ih (s + 1)]
    rw [show s + 1 + m = s + (m + 1) from by omega]
    rfl

/-- One row of the dynamic program preserves the diagonal invariant when the
sequence is matched against itself on the full range. -/
theorem dpStep_inv (b : List String) (r : Nat) (hr : r < b.length)
    (st : (Nat → Nat) × Nat × Nat × Nat) (h : DpInv b r st) :
    DpInv b (r + 1) (dpStep b b 0 b.length st r) := by
  obtain ⟨I1, I2, I3, I4, I4b, I5⟩ := h
  show DpInv b (r + 1)
    ((((b2j b (b.getD r "")).filter (fun j => decide (0 ≤ j))).takeWhile
        (fun j => decide (j < b.length))).foldl (dpInner st.1 r)
      ((fun _ => 0), st.2))
  rw [dpStep_js_eq]
  by_cases hpop : isPopular b (b.getD r "") = true
  · -- popular value: the position list is empty, the row resets to zeros
    rw [show b2j b (b.getD r "") = [] from by unfold b2j; rw [if_pos hpop],
      List.foldl_nil]
    refine ⟨fun j => Nat.zero_le _, fun j => Nat.zero_le _, ?_, I4, I4b, ?_⟩
    · intro r' hr'
      have hrr : r' = r := by omega
      subst hrr
      show (0 : Nat) = runLen b (r' + 1)
      rw [runLen_succ_popular hpop]
    · intro r' hr'
      rcases Nat.lt_or_ge r' (r + 1) with h1 | h1
      · exact I5 r' (by omega)
      · obtain rfl : r' = r + 1 := by omega
        rw [runLen_succ_popular hpop]
        exact Nat.zero_le _
  · rw [Bool.not_eq_true] at hpop
    -- the value at the diagonal is not popular
    have hmemr : r ∈ b2j b (b.getD r "") := by
      unfold b2j
      rw [if_neg (by rw [hpop]; exact fun e => Bool.noConfusion e)]
      exact List.mem_filter.mpr ⟨List.mem_range.mpr hr, beq_self_eq_true _⟩
    -- chain-length bounds from the invariant
    have hkv_le_run : ∀ j, b.getD j "" = b.getD r "" → kv st.1 j ≤ runLen b (j + 1) := by
      intro j hjv
      have hnp : isPopular b (b.getD j "") = false := by rw [hjv]; exact hpop
      unfold kv
      by_cases hj0 : j = 0
      · subst hj0
        rw [if_pos rfl, runLen_succ_not_popular hnp]
        omega
      · rw [if_neg hj0]
        have h1 : st.1 (j - 1) ≤ runLen b ((j - 1) + 1) := I1 (j - 1)
        rw [show (j - 1) + 1 = j from by omega] at h1
        rw [runLen_succ_not_popular hnp]
        omega
    have hkv_le_R : ∀ j, kv st.1 j ≤ runLen b (r + 1) := by
      intro j
      rw [runLen_succ_not_popular hpop]
      unfold kv
      by_cases hj0 : j = 0
      · rw [if_pos hj0]
        omega
      · rw [if_neg hj0]
        have := I2 (j - 1)
        omega
    have hkvr : kv st.1 r = runLen b (r + 1) := by
      unfold kv
      by_cases hr0 : r = 0
      · subst hr0
        rw [if_pos rfl, runLen_succ_not_popular hpop]
        rfl
      · rw [if_neg hr0]
        have h3 := I3 (r - 1) (by omega)
        rw [h3, runLen_succ_not_popular hpop]
    -- split the ascending position list at the diagonal
    have e1 : List.range b.length = List.range' 0 r ++ List.range' r (b.length - r) := by
      rw [List.range_eq_range' b.length,
        show b.length = r + (b.length - r) from by omega, range'_split 0 r]
      rw [show r + (b.length - r) - r = b.length - r from by omega, Nat.zero_add]
    have e2 : List.range' r (b.length - r) =
        r :: List.range' (r + 1) (b.length - r - 1) := by
      rw [show b.length - r = (b.length - r - 1) + 1 from by omega]
      rfl
    have hsplit : b2j b (b.getD r "") =
        ((List.range' 0 r).filter (fun j => b.getD j "" == b.getD r ""))
        ++ r :: ((List.range' (r + 1) (b.length - r - 1)).filter
          (fun j => b.getD j "" == b.getD r "")) := by
      unfold b2j
      rw [if_neg (by rw [hpop]; exact fun e => Bool.noConfusion e)]
      rw [e1, List.filter_append, e2, List.filter_cons, if_pos (beq_self_eq_true _)]
    -- stage bounds
    have hK1 : ∀ j ∈ (List.range' 0 r).filter
        (fun j => b.getD j "" == b.getD r ""), kv st.1 j ≤ st.2.2.2 := by
      intro j hj
      have hjr : j < r := by
        have h1 := List.mem_range'_1.mp (List.mem_filter.mp hj).1
        omega
      have hjv : b.getD j "" = b.getD r "" := by
        have h2 := (List.mem_filter.mp hj).2
        simpa using h2
      calc kv st.1 j ≤ runLen b (j + 1) := hkv_le_run j hjv
        _ ≤ st.2.2.2 := I5 (j + 1) (by omega)
    -- the best after the whole row
    have hF2 : ((b2j b (b.getD r "")).foldl (dpInner st.1 r) ((fun _ => 0), st.2)).2
        = (if kv st.1 r > st.2.2.2
           then (r + 1 - kv st.1 r, r + 1 - kv st.1 r, kv st.1 r) else st.2) := by
      rw [hsplit, List.foldl_append, List.foldl_cons, dpInner_eq,
        foldl_dpInner_best_const st.1 r
          ((List.range' 0 r).filter (fun j => b.getD j "" == b.getD r ""))
          (fun _ => 0) st.2 hK1]
      by_cases hcond : kv st.1 r > st.2.2.2
      · rw [if_pos hcond]
        exact foldl_dpInner_best_const _ _ _ _ _ (by
          intro j hj
          show kv st.1 j ≤ kv st.1 r
          rw [hkvr]
          exact hkv_le_R j)
      · rw [if_neg hcond]
        exact foldl_dpInner_best_const _ _ _ _ _ (by
          intro j hj
          show kv st.1 j ≤ st.2.2.2
          have h1 := hkv_le_R j
          rw [← hkvr] at h1
          omega)
    have hRle : runLen b (r + 1) ≤ r + 1 := runLen_le b (r + 1)
    refine ⟨?_, ?_, ?_, ?_, ?_, ?_⟩
    · intro j
      rw [foldl_dpInner_nj]
      by_cases hj : j ∈ b2j b (b.getD r "")
      · rw [if_pos hj]
        exact hkv_le_run j (mem_b2j hj).2.1
      · rw [if_neg hj]
        exact Nat.zero_le _
    · intro j
      rw [foldl_dpInner_nj]
      by_cases hj : j ∈ b2j b (b.getD r "")
      · rw [if_pos hj]
        exact hkv_le_R j
      · rw [if_neg hj]
        exact Nat.zero_le _
    · intro r' hr'
      obtain rfl : r' = r := by omega
      rw [foldl_dpInner_nj, if_pos hmemr]
      exact hkvr
    · rw [hF2]
      by_cases hcond : kv st.1 r > st.2.2.2
      · rw [if_pos hcond]
      · rw [if_neg hcond]
        exact I4
    · rw [hF2]
      by_cases hcond : kv st.1 r > st.2.2.2
      · rw [if_pos hcond]
        show (r + 1 - kv st.1 r) + kv st.1 r ≤ b.length
        rw [hkvr]
        omega
      · rw [if_neg hcond]
        exact I4b
    · intro r' hr'
      rw [hF2]
      by_cases hcond : kv st.1 r > st.2.2.2
      · rw [if_pos hcond]
        show runLen b r' ≤ kv st.1 r
        rcases Nat.lt_or_ge r' (r + 1) with h1 | h1
        · have := I5 r' (by omega)
          omega
        · obtain rfl : r' = r + 1 := by omega
          rw [hkvr]
      · rw [if_neg hcond]
        rcases Nat.lt_or_ge r' (r + 1) with h1 | h1
        · exact I5 r' (by omega)
        · obtain rfl : r' = r + 1 := by omega
          rw [← hkvr]
          omega

theorem dpInv_zero (b : List String) : DpInv b 0 ((fun _ => 0), (0, 0, 0)) := by
  refine ⟨fun j => Nat.zero_le _, fun j => Nat.zero_le _, ?_, rfl, ?_, ?_⟩
  · intro r' hr'
    omega
  · exact Nat.zero_le _
  · intro r' hr'
    have hr0 : r' = 0 := by omega
    subst hr0
    exact le_rfl

theorem dpLoop_inv (b : List String) (m : Nat) (hm : m ≤ b.length) :
    DpInv b m ((List.range' 0 m).foldl (dpStep b b 0 b.length)
      ((fun _ => 0), (0, 0, 0))) := by
  induction m with
  | zero => exact dpInv_zero b
  | succ m ih =>
    rw [List.range'_1_concat, List.foldl_append, List.foldl_cons, List.foldl_nil,
      Nat.zero_add]
    exact dpStep_inv b m (by omega) _ (ih (by omega))

theorem extendBack_diag (b : List String) :
    ∀ d bs, extendBack b b 0 0 d d bs = (0, 0, bs + d) := by
  intro d
  induction d with
  | zero =>
    intro bs
    rw [extendBack, dif_neg (by rintro ⟨h1, h2, h3⟩; omega)]
    rw [Nat.add_zero]
  | succ d ih =>
    intro bs
    rw [extendBack, dif_pos ⟨Nat.succ_pos d, Nat.succ_pos d, rfl⟩]
    show extendBack b b 0 0 d d (bs + 1) = (0, 0, bs + (d + 1))
    rw [ih (bs + 1)]
    rw [show bs + 1 + d = bs + (d + 1) from by omega]

theorem extendFwd_diag (b : List String) (n : Nat) :
    ∀ k bs, n - bs = k → bs ≤ n → extendFwd b b n n 0 0 bs = (0, 0, n) := by
  intro k
  induction k with
  | zero =>
    intro bs h1 h2
    have hbn : bs = n := by omega
    subst hbn
    rw [extendFwd, dif_neg (by rintro ⟨h3, h4, h5⟩; omega)]
  | succ k ih =>
    intro bs h1 h2
    rw [extendFwd, dif_pos ⟨by omega, by omega, rfl⟩]
    exact ih (bs + 1) (by omega) (by omega)

/-- On identical sequences, `find_longest_match` over the full range returns
the whole range: the dynamic program's best is on the diagonal, and the
extension loops (whose junk tests are vacuous) then extend it to everything. -/
theorem flm_self (b : List String) :
    findLongestMatch b b 0 b.length 0 b.length = (0, 0, b.length) := by
  obtain ⟨i1, i2, i3, hdiag, hrange, i5⟩ := dpLoop_inv b b.length le_rfl
  unfold findLongestMatch
  rw [Nat.sub_zero]
  show extendFwd b b b.length b.length
      (extendBack b b 0 0 (((List.range' 0 b.length).foldl (dpStep b b 0 b.length)
        ((fun _ => 0), (0, 0, 0)))).2.1 (((List.range' 0 b.length).foldl (dpStep b b 0 b.length)
        ((fun _ => 0), (0, 0, 0)))).2.2.1 (((List.range' 0 b.length).foldl (dpStep b b 0 b.length)
        ((fun _ => 0), (0, 0, 0)))).2.2.2).1
      (extendBack b b 0 0 (((List.range' 0 b.length).foldl (dpStep b b 0 b.length)
        ((fun _ => 0), (0, 0, 0)))).2.1 (((List.range' 0 b.length).foldl (dpStep b b 0 b.length)
        ((fun _ => 0), (0, 0, 0)))).2.2.1 (((List.range' 0 b.length).foldl (dpStep b b 0 b.length)
        ((fun _ => 0), (0, 0, 0)))).2.2.2).2.1
      (extendBack b b 0 0 (((List.range' 0 b.length).foldl (dpStep b b 0 b.length)
        ((fun _ => 0), (0, 0, 0)))).2.1 (((List.range' 0 b.length).foldl (dpStep b b 0 b.length)
        ((fun _ => 0), (0, 0, 0)))).2.2.1 (((List.range' 0 b.length).foldl (dpStep b b 0 b.length)
        ((fun _ => 0), (0, 0, 0)))).2.2.2).2.2 = (0, 0, b.length)
  rw [← hdiag, extendBack_diag]
  show extendFwd b b b.length b.length 0 0
    ((((List.range' 0 b.length).foldl (dpStep b b 0 b.length)
        ((fun _ => 0), (0, 0, 0)))).2.2.2 + (((List.range' 0 b.length).foldl (dpStep b b 0 b.length)
        ((fun _ => 0), (0, 0, 0)))).2.1) = (0, 0, b.length)
  exact extendFwd_diag b b.length _ _ rfl (by omega)

/-- On an empty interval the matcher reports no match. -/
theorem flm_empty_interval (b : List String) (s : Nat) :
    findLongestMatch b b s s s s = (s, s, 0) := by
  unfold findLongestMatch
  rw [Nat.sub_self]
  show extendFwd b b s s
      (extendBack b b s s s s 0).1
      (extendBack b b s s s s 0).2.1
      (extendBack b b s s s s 0).2.2 = (s, s, 0)
  rw [extendBack, dif_neg (by rintro ⟨h1, h2, h3⟩; omega)]
  rw [extendFwd, dif_neg (by rintro ⟨h1, h2, h3⟩; omega)]

theorem matchingBlocksAux_empty_interval (b : List String) (fuel s : Nat) :
    matchingBlocksAux b b fuel s s s s = [] := by
  cases fuel with
  | zero => rfl
  | succ fuel =>
    rw [matchingBlocksAux, flm_empty_interval]
    rw [if_pos rfl]

theorem matchingBlocksAux_self (b : List String) (fuel : Nat) (hf : 1 ≤ fuel)
    (hb : b.length ≠ 0) :
    matchingBlocksAux b b fuel 0 b.length 0 b.length = [(0, 0, b.length)] := by
  cases fuel with
  | zero => omega
  | succ fuel =>
    rw [matchingBlocksAux, flm_self]
    rw [if_neg (by simpa using hb)]
    show matchingBlocksAux b b fuel 0 0 0 0 ++ (0, 0, b.length) ::
      matchingBlocksAux b b fuel (0 + b.length) b.length (0 + b.length) b.length = _
    rw [Nat.zero_add, matchingBlocksAux_empty_interval,
      matchingBlocksAux_empty_interval]
    rfl

theorem getMatchingBlocks_self (b : List String) (hb : b.length ≠ 0) :
    getMatchingBlocks b b = [(0, 0, b.length), (b.length, b.length, 0)] := by
  unfold getMatchingBlocks
  rw [matchingBlocksAux_self b _ (by omega) hb]
  show mergeBlocks (0, 0, 0) [(0, 0, b.length)] ++ [(b.length, b.length, 0)] =
    [(0, 0, b.length), (b.length, b.length, 0)]
  rw [mergeBlocks, if_pos ⟨rfl, rfl⟩]
  rw [mergeBlocks, if_pos (by omega)]
  rw [Nat.zero_add]
  rfl

theorem getMatchingBlocks_nil (b : List String) (hb : b.length = 0) :
    getMatchingBlocks b b = [(b.length, b.length, 0)] := by
  unfold getMatchingBlocks
  rw [hb, matchingBlocksAux_empty_interval]
  rw [mergeBlocks, if_neg (by omega)]
  rfl

theorem getOpcodes_self_nil (b : List String) (hb : b.length = 0) :
    getOpcodes b b = [] := by
  unfold getOpcodes
  rw [getMatchingBlocks_nil b hb, hb]
  rfl

theorem getOpcodes_self (b : List String) (hb : b.length ≠ 0) :
    getOpcodes b b = [("equal", 0, b.length, 0, b.length)] := by
  unfold getOpcodes
  rw [getMatchingBlocks_self b hb]
  simp [opcodesAux, hb]

/-- A single `equal` opcode no wider than `2n` yields no group. -/
theorem groupSplit_single_equal (nn n i1 i2 j1 j2 : Nat) (h : ¬ i2 - i1 > nn) :
    groupSplit nn n [] [("equal", i1, i2, j1, j2)] = [] := by
  rw [groupSplit, if_neg (by rintro ⟨h1, h2⟩; exact h h2)]
  rw [groupSplit, if_neg (by rintro ⟨h1, h2⟩; exact h2 ⟨rfl, rfl⟩)]

/-- Zeta-reduced form of `get_grouped_opcodes`. -/
theorem getGroupedOpcodes_eq (a b : List String) (n : Nat) :
    getGroupedOpcodes a b n =
      groupSplit (n + n) n [] (clampLast n (clampFirst n
        (if getOpcodes a b = [] then [("equal", 0, 1, 0, 1)]
         else getOpcodes a b))) :=
  rfl

theorem getGroupedOpcodes_self (b : List String) (n : Nat) :
    getGroupedOpcodes b b n = [] := by
  rw [getGroupedOpcodes_eq]
  by_cases hb : b.length = 0
  · rw [getOpcodes_self_nil b hb, if_pos rfl]
    show groupSplit (n + n) n []
      [("equal", max 0 (1 - n), min 1 (max 0 (1 - n) + n),
        max 0 (1 - n), min 1 (max 0 (1 - n) + n))] = []
    exact groupSplit_single_equal _ _ _ _ _ _ (by omega)
  · rw [getOpcodes_self b hb, if_neg (by simp)]
    show groupSplit (n + n) n []
      [("equal", max 0 (b.length - n),
        min b.length (max 0 (b.length - n) + n),
        max 0 (b.length - n), min b.length (max 0 (b.length - n) + n))] = []
    exact groupSplit_single_equal _ _ _ _ _ _ (by omega)

/-- `unified_diff` on identical line sequences prints nothing at all. -/
theorem unifiedDiff_self (b : List String) (fromfile tofile : String) (n : Nat) :
    unifiedDiff b b fromfile tofile n = [] := by
  unfold unifiedDiff
  rw [getGroupedOpcodes_self]
  rw [if_pos rfl]

/-- Nonempty `unified_diff` output begins with the two labelled headers. -/
theorem unifiedDiff_headers (a b : List String) (fromfile tofile : String)
    (n : Nat) (h : unifiedDiff a b fromfile tofile n ≠ []) :
    (unifiedDiff a b fromfile tofile n).take 2 =
      ["--- " ++ fromfile ++ "\n", "+++ " ++ tofile ++ "\n"] := by
  unfold unifiedDiff at h ⊢
  by_cases hg : getGroupedOpcodes a b n = []
  · rw [if_pos hg] at h
    exact absurd rfl h
  · rw [if_neg hg]
    rfl

/-! ### C7 -/

/-- C7: `diff` prints the unified diff (default three-line context) of the
backup file's lines against the live settings file's lines with the from-file
labelled `before.json` and the to-file labelled `after.json`; identical line
sequences produce no output at all, and any nonempty output begins with the
two labelled header lines. -/
theorem c7_diff_unified_labels_empty_on_equal (plat : Platform)
    (home appdata : String) (fs : Fs) (praw backupContent sysContent : String)
    (h1 : fs "vscode-settings.jsonc" = some backupContent)
    (h2 : settingsPathRaw plat appdata = some praw)
    (h3 : fs (expanduser home praw) = some sysContent) :
    diffRun plat home appdata fs =
      .ok (unifiedDiff (readLines backupContent) (readLines sysContent)
        "before.json" "after.json" 3) ∧
    (readLines backupContent = readLines sysContent →
      diffRun plat home appdata fs = .ok []) ∧
    (∀ out, diffRun plat home appdata fs = .ok out → out ≠ [] →
      out.take 2 = ["--- before.json\n", "+++ after.json\n"]) := by
  have hmain : diffRun plat home appdata fs =
      .ok (unifiedDiff (readLines backupContent) (readLines sysContent)
        "before.json" "after.json" 3) := by
    unfold diffRun
    rw [h1, h2]
    simp only [h3]
  refine ⟨hmain, ?_, ?_⟩
  · intro he
    rw [hmain, he, unifiedDiff_self]
  · intro out hout hne
    rw [hmain] at hout
    obtain rfl : unifiedDiff (readLines backupContent) (readLines sysContent)
        "before.json" "after.json" 3 = out := Except.ok.inj hout
    exact unifiedDiff_headers _ _ _ _ _ hne

/-- Witness for C7: a concrete linux filesystem whose backup and live settings
files have identical content, so `diff` prints nothing; and a differing pair,
whose output opens with the two header lines. -/
theorem c7_witness :
    diffRun .linux "/home/u" "" (fun q =>
      if q = "/home/u/.config/Code/User/settings.json" then some "a\nb\n"
      else if q = "vscode-settings.jsonc" then some "a\nb\n" else none) =
      .ok [] ∧
    (∀ out, diffRun .linux "/home/u" "" (fun q =>
        if q = "/home/u/.config/Code/User/settings.json" then some "a\nb\n"
        else if q = "vscode-settings.jsonc" then some "a\nc\n"
        else none) = .ok out → out ≠ [] →
      out.take 2 = ["--- before.json\n", "+++ after.json\n"]) := by
  constructor
  · exact (c7_diff_unified_labels_empty_on_equal .linux "/home/u" "" _
      "~/.config/Code/User/settings.json" "a\nb\n" "a\nb\n"
      (by decide) rfl (by decide)).2.1 rfl
  · exact (c7_diff_unified_labels_empty_on_equal .linux "/home/u" "" _
      "~/.config/Code/User/settings.json" "a\nc\n" "a\nb\n"
      (by decide) rfl (by decide)).2.2
